import Mathlib

/-!
# rpk `topic autorestore`: the command layer and the recovery client contract

A shallow embedding of

* `src/go/rpk/pkg/cli/cmd/topic/autorestore/autorestore.go` (`NewCommand`),
* `src/go/rpk/pkg/cli/cmd/topic/autorestore/start.go` (`newStartCommand`),
* `src/go/rpk/pkg/cli/cmd/topic/autorestore/status.go` (`newStatusCommand`).

A run of a command is a value of `Proc`: the ordered log of what the process
did (collaborator calls, lines printed, the message it died with) together with
either a value (the process is still running) or an exit code. The
collaborators of the commands (configuration, admin client, decoding of error
bodies) are the fields of `Env`.

The admin client itself (`StartAutomatedRecovery`, exercised by
`src/go/rpk/pkg/api/admin/api_cloud_storage_test.go`) is not among the sources;
it is modelled from the specification, over a text-level model of the JSON wire
format. Strings are sequences of Unicode characters.
-/

namespace Autorestore

/-! ## Errors -/

/-- The Go type `*admin.HTTPResponseError`, as far as the command layer reads
it: `he.Response.StatusCode`, the raw body, and the text of `he.Error()`. -/
structure HTTPResponseError where
  StatusCode : Int
  Body : String
  text : String
  deriving DecidableEq

/-- A Go `error` value: an `*admin.HTTPResponseError`, an error of any other
type, or a wrapper whose `Unwrap()` gives the next error of the chain. -/
inductive GoError where
  | httpResponse (he : HTTPResponseError)
  | other (text : String)
  | wrapped (text : String) (inner : GoError)
  deriving DecidableEq

/-- The method `err.Error()`, which is what the verb `%v` prints. -/
def GoError.Error : GoError → String
  | .httpResponse he => he.text
  | .other text => text
  | .wrapped text _ => text

/-- The call `errors.As(err, &he)` with `he` of type `*admin.HTTPResponseError`:
the first error of the chain that has that type; a nil error has none. -/
def errorsAsChain : GoError → Option HTTPResponseError
  | .httpResponse he => some he
  | .other _ => none
  | .wrapped _ inner => errorsAsChain inner

/-- The call `errors.As(err, &he)` on a possibly nil `err`. -/
def errorsAs (err : Option GoError) : Option HTTPResponseError :=
  match err with
  | none => none
  | some e => errorsAsChain e

/-- The error half of a Go `(value, error)` result: nil on success. -/
def errOf {α : Type} (r : Except GoError α) : Option GoError :=
  match r with
  | .ok _ => none
  | .error e => some e

/-! ## Data returned by the admin client -/

/-- The Go type `admin.GenericErrorBody`, of which the command reads `Message`. -/
structure GenericErrorBody where
  Message : String
  deriving DecidableEq

/-- The Go type `admin.RecoveryStartResponse` (see `TestStartAutomatedRecovery`). -/
structure RecoveryStartResponse where
  Code : Int
  Message : String
  deriving DecidableEq

/-- The Go type `admin.RecoveryRequestParams` (see `TestStartAutomatedRecovery`). -/
structure RecoveryRequestParams where
  TopicNamesPattern : String
  deriving DecidableEq

/-- The status snapshot returned by `PollAutomatedRecoveryStatus`, of which the
command reads `State`. -/
structure RecoveryStatus where
  State : String
  deriving DecidableEq

/-! ## JSON text

The wire format of the admin API: flat JSON objects whose members are strings
and integers (`encoding/json` on the three struct types the client uses). -/

namespace Json

/-- Modelled from the spec: JSON text of section 6 (`encoding/json` is a library).
A member value of a flat JSON object. -/
inductive Value where
  | str (s : String)
  | num (n : Int)
  deriving DecidableEq

/-- Modelled from the spec: JSON text of section 6 (`encoding/json` is a library).
The lower-case hexadecimal digit of `n < 16`. -/
def hexDigit (n : Nat) : Char :=
  if n < 10 then Char.ofNat (48 + n) else Char.ofNat (87 + n)

/-- Modelled from the spec: JSON text of section 6 (`encoding/json` is a library).
The value of a hexadecimal digit, of either case. -/
def hexValue (c : Char) : Option Nat :=
  if 48 ≤ c.toNat ∧ c.toNat ≤ 57 then some (c.toNat - 48)
  else if 97 ≤ c.toNat ∧ c.toNat ≤ 102 then some (c.toNat - 87)
  else if 65 ≤ c.toNat ∧ c.toNat ≤ 70 then some (c.toNat - 55)
  else none

/-- Modelled from the spec: JSON text of section 6 (`encoding/json` is a library).
The four hexadecimal digits of `n < 65536`. -/
def hex4 (n : Nat) : List Char :=
  [hexDigit (n / 4096 % 16), hexDigit (n / 256 % 16), hexDigit (n / 16 % 16), hexDigit (n % 16)]

/-- Modelled from the spec: JSON text of section 6 (`encoding/json` is a library).
The number four hexadecimal digits write. -/
def hex4Value (a b c d : Char) : Option Nat :=
  match hexValue a, hexValue b, hexValue c, hexValue d with
  | some x, some y, some z, some w => some (((x * 16 + y) * 16 + z) * 16 + w)
  | _, _, _, _ => none

/-- Modelled from the spec: JSON text of section 6 (`encoding/json` is a library).
The characters written as `\uXXXX`: control characters, the three HTML
characters, and the two Unicode line separators. -/
def needsUnicodeEscape (c : Char) : Bool :=
  c.toNat < 32 || c = '<' || c = '>' || c = '&' || c.toNat = 0x2028 || c.toNat = 0x2029

/-- Modelled from the spec: JSON text of section 6 (`encoding/json` is a library).
One character of a string, as written inside a JSON string literal. -/
def escapeChar (c : Char) : List Char :=
  if c = '"' then ['\\', '"']
  else if c = '\\' then ['\\', '\\']
  else if c = '\n' then ['\\', 'n']
  else if c = '\r' then ['\\', 'r']
  else if c = '\t' then ['\\', 't']
  else if needsUnicodeEscape c then '\\' :: 'u' :: hex4 c.toNat
  else [c]

/-- Modelled from the spec: JSON text of section 6 (`encoding/json` is a library).
The characters of a string, as written inside a JSON string literal. -/
def escape : List Char → List Char
  | [] => []
  | c :: cs => escapeChar c ++ escape cs

/-- Modelled from the spec: JSON text of section 6 (`encoding/json` is a library).
A string as a JSON string literal. -/
def quote (s : String) : List Char :=
  '"' :: (escape s.data ++ ['"'])

/-- Modelled from the spec: JSON text of section 6 (`encoding/json` is a library).
The character a two-character escape stands for. -/
def simpleEscape (e : Char) : Option Char :=
  if e = '"' then some '"'
  else if e = '\\' then some '\\'
  else if e = '/' then some '/'
  else if e = 'b' then some (Char.ofNat 8)
  else if e = 'f' then some (Char.ofNat 12)
  else if e = 'n' then some '\n'
  else if e = 'r' then some '\r'
  else if e = 't' then some '\t'
  else none

/-- Modelled from the spec: JSON text of section 6 (`encoding/json` is a library).
Reads a JSON string literal after its opening quote: the characters up to
the closing quote, and the input after it. A raw control character, an unknown
escape and an unterminated literal are errors. -/
def unquoteBody : List Char → Option (List Char × List Char)
  | [] => none
  | c :: rest =>
    if c = '"' then some ([], rest)
    else if c = '\\' then
      match rest with
      | [] => none
      | e :: rest2 =>
        if e = 'u' then
          match rest2 with
          | a :: b :: c2 :: d :: rest3 =>
            match hex4Value a b c2 d with
            | some n => (unquoteBody rest3).map (fun r => (Char.ofNat n :: r.1, r.2))
            | none => none
          | _ => none
        else
          match simpleEscape e with
          | some ch => (unquoteBody rest2).map (fun r => (ch :: r.1, r.2))
          | none => none
    else if c.toNat < 32 then none
    else (unquoteBody rest).map (fun r => (c :: r.1, r.2))

/-- Modelled from the spec: JSON text of section 6 (`encoding/json` is a library).
JSON whitespace. -/
def isWs (c : Char) : Bool :=
  c = ' ' || c = '\t' || c = '\n' || c = '\r'

/-- Modelled from the spec: JSON text of section 6 (`encoding/json` is a library).
Drops leading whitespace. -/
def skipWs : List Char → List Char
  | [] => []
  | c :: cs => if isWs c then skipWs cs else c :: cs

/-- Modelled from the spec: JSON text of section 6 (`encoding/json` is a library).
A decimal digit. -/
def isDigit (c : Char) : Bool :=
  48 ≤ c.toNat && c.toNat ≤ 57

/-- Modelled from the spec: JSON text of section 6 (`encoding/json` is a library).
The decimal digits of `n`, most significant first; `fuel` bounds their
number. -/
def natDigits : Nat → Nat → List Char
  | 0, _ => []
  | fuel + 1, n =>
    if n < 10 then [Char.ofNat (48 + n)]
    else natDigits fuel (n / 10) ++ [Char.ofNat (48 + n % 10)]

/-- Modelled from the spec: JSON text of section 6 (`encoding/json` is a library).
A natural number in decimal. -/
def encodeNat (n : Nat) : List Char := natDigits (n + 1) n

/-- Modelled from the spec: JSON text of section 6 (`encoding/json` is a library).
An integer in decimal. -/
def encodeInt (i : Int) : List Char :=
  if i < 0 then '-' :: encodeNat i.natAbs else encodeNat i.natAbs

/-- Modelled from the spec: JSON text of section 6 (`encoding/json` is a library).
Reads decimal digits: the number they write after `acc`, and the input
from the first character that is not a digit. -/
def parseDigits : List Char → Nat → Nat × List Char
  | [], acc => (acc, [])
  | c :: r, acc =>
    if isDigit c then parseDigits r (acc * 10 + (c.toNat - 48))
    else (acc, c :: r)

/-- Modelled from the spec: JSON text of section 6 (`encoding/json` is a library).
Whether the input starts with a decimal digit. -/
def startsWithDigit : List Char → Bool
  | [] => false
  | c :: _ => isDigit c

/-- Modelled from the spec: JSON text of section 6 (`encoding/json` is a library).
Reads an integer: an optional minus sign and at least one digit. -/
def parseInt (cs : List Char) : Option (Int × List Char) :=
  match cs with
  | [] => none
  | c :: r =>
    if c = '-' then
      if startsWithDigit r then some (-((parseDigits r 0).1 : Int), (parseDigits r 0).2)
      else none
    else if startsWithDigit cs then some (((parseDigits cs 0).1 : Int), (parseDigits cs 0).2)
    else none

/-- Modelled from the spec: JSON text of section 6 (`encoding/json` is a library).
Reads a member value: a string literal or an integer. -/
def parseValue (cs : List Char) : Option (Value × List Char) :=
  match cs with
  | [] => none
  | c :: r =>
    if c = '"' then (unquoteBody r).map (fun p => (Value.str (String.mk p.1), p.2))
    else (parseInt cs).map (fun p => (Value.num p.1, p.2))

/-- Modelled from the spec: JSON text of section 6 (`encoding/json` is a library).
Reads the members of an object up to its closing brace, at most `fuel` of
them. -/
def parseMembers : Nat → List Char → Option (List (String × Value) × List Char)
  | 0, _ => none
  | fuel + 1, cs =>
    match skipWs cs with
    | [] => none
    | q :: r1 =>
      if q = '"' then
        match unquoteBody r1 with
        | none => none
        | some (k, r2) =>
          match skipWs r2 with
          | [] => none
          | colon :: r3 =>
            if colon = ':' then
              match parseValue (skipWs r3) with
              | none => none
              | some (v, r4) =>
                match skipWs r4 with
                | [] => none
                | sep :: r5 =>
                  if sep = ',' then
                    (parseMembers fuel r5).map (fun p => ((String.mk k, v) :: p.1, p.2))
                  else if sep = '}' then some ([(String.mk k, v)], r5)
                  else none
            else none
      else none

/-- Modelled from the spec: JSON text of section 6 (`encoding/json` is a library).
Reads a whole text as one flat JSON object. Every member takes at least one
character, so the length of the text is fuel enough. -/
def parseObject (s : String) : Option (List (String × Value)) :=
  match skipWs s.data with
  | [] => none
  | c :: r =>
    if c = '{' then
      match skipWs r with
      | [] => none
      | c1 :: r1 =>
        if c1 = '}' then (if skipWs r1 = [] then some [] else none)
        else
          match parseMembers (r.length + 1) r with
          | none => none
          | some (ms, r2) => if skipWs r2 = [] then some ms else none
    else none

/-- Modelled from the spec: JSON text of section 6 (`encoding/json` is a library).
The value of the first member of that name. -/
def field (ms : List (String × Value)) (key : String) : Option Value :=
  (ms.find? (fun m => m.1 == key)).map (fun m => m.2)

/-- Modelled from the spec: JSON text of section 6 (`encoding/json` is a library).
A string member: the empty string when the member is absent (the zero value
of the Go field), an error when it is not a string. -/
def stringField (ms : List (String × Value)) (key : String) : Option String :=
  match field ms key with
  | none => some ""
  | some (.str s) => some s
  | some (.num _) => none

/-- Modelled from the spec: JSON text of section 6 (`encoding/json` is a library).
An integer member: 0 when the member is absent (the zero value of the Go
field), an error when it is not a number. -/
def intField (ms : List (String × Value)) (key : String) : Option Int :=
  match field ms key with
  | none => some 0
  | some (.num n) => some n
  | some (.str _) => none

end Json

/-! ## The recovery client -/

/-- Modelled from the spec: the request body of section 6,
`{"topic_names_pattern": string}` (the admin client is not among the sources). -/
def encodeRecoveryRequestParams (r : RecoveryRequestParams) : String :=
  String.mk ('{' :: (Json.quote "topic_names_pattern" ++
    ':' :: (Json.quote r.TopicNamesPattern ++ ['}'])))

/-- Modelled from the spec: reading a request body of section 6 (what the test
server of `TestStartAutomatedRecovery` does with `json.Unmarshal`). -/
def decodeRecoveryRequestParams (body : String) : Option RecoveryRequestParams :=
  match Json.parseObject body with
  | none => none
  | some ms => (Json.stringField ms "topic_names_pattern").map (fun p => ⟨p⟩)

/-- Modelled from the spec: the success body of section 6,
`{"code": int, "message": string}` (the admin client is not among the
sources). -/
def encodeRecoveryStartResponse (r : RecoveryStartResponse) : String :=
  String.mk ('{' :: (Json.quote "code" ++ ':' :: (Json.encodeInt r.Code ++
    ',' :: (Json.quote "message" ++ ':' :: (Json.quote r.Message ++ ['}'])))))

/-- Modelled from the spec: reading a success body of section 6. -/
def decodeRecoveryStartResponse (body : String) : Option RecoveryStartResponse :=
  match Json.parseObject body with
  | none => none
  | some ms =>
    match Json.intField ms "code", Json.stringField ms "message" with
    | some c, some m => some ⟨c, m⟩
    | _, _ => none

/-- Modelled from the spec: the generic error body of section 4.2,
`{message: string}`, read from the body of a failed response
(`he.DecodeGenericErrorBody()` is not among the sources). -/
def decodeGenericErrorBody (body : String) : Except GoError GenericErrorBody :=
  match Json.parseObject body with
  | none => .error (.other "invalid generic error body")
  | some ms =>
    match Json.stringField ms "message" with
    | some m => .ok ⟨m⟩
    | none => .error (.other "invalid generic error body")

/-- Modelled from the spec: an HTTP request, as the transport collaborator of
section 1 receives it. -/
structure Request where
  Method : String
  Path : String
  Header : List (String × String)
  Body : String
  deriving DecidableEq

/-- Modelled from the spec: the value of a header of a request (what
`r.Header.Get` reads in `TestStartAutomatedRecovery`). -/
def Request.headerGet (r : Request) (key : String) : String :=
  match r.Header.find? (fun h => h.1 == key) with
  | some h => h.2
  | none => ""

/-- Modelled from the spec: what the transport gives back (section 7): an HTTP
response, or a transport failure (no response at all). -/
inductive TransportResult where
  | response (StatusCode : Int) (Body : String)
  | failure (text : String)
  deriving DecidableEq

/-- Modelled from the spec: the request of `StartRecovery(pattern)` (section
4.1): a POST to the fixed path with `Content-Type: application/json` and the
body `{"topic_names_pattern": pattern}`. -/
def startAutomatedRecoveryRequest (pattern : String) : Request :=
  { Method := "POST"
    Path := "/v1/cloud_storage/automated_recovery"
    Header := [("Content-Type", "application/json")]
    Body := encodeRecoveryRequestParams ⟨pattern⟩ }

/-- Modelled from the spec: how `StartRecovery` reads what the transport gives
back (section 4.1): a result for HTTP 200 with a body that decodes, an error
that carries status and body for any other status, an error for a body that
does not decode and for a transport failure. -/
def interpretStartResult (res : TransportResult) : Except GoError RecoveryStartResponse :=
  match res with
  | .failure text => .error (.other text)
  | .response status body =>
    if status = 200 then
      match decodeRecoveryStartResponse body with
      | some r => .ok r
      | none => .error (.other "unable to decode response body")
    else .error (.httpResponse ⟨status, body, "request failed, body: " ++ body⟩)

/-- Modelled from the spec: `StartRecovery(pattern)` of section 4.1 (the method
`StartAutomatedRecovery` of the admin client is not among the sources): one
request, no retry, no validation of the pattern. -/
def StartAutomatedRecovery (send : Request → TransportResult) (pattern : String) :
    Except GoError RecoveryStartResponse :=
  interpretStartResult (send (startAutomatedRecoveryRequest pattern))

/-! ## The test of the client

`TestStartAutomatedRecovery` of `api_cloud_storage_test.go`: the three handlers
of the test server and `runTest`. -/

/-- What a handler of the test server does with a request: the outcomes of its
assertions, in order, and its answer. -/
structure Handled where
  assertions : List Bool
  answer : TransportResult

/-- The test cases of `TestStartAutomatedRecovery` (`requestTestCase`); a
`testFn` of `none` is the Go `nil` (no server is started). -/
structure requestTestCase where
  name : String
  testFn : Option (Request → Handled)
  shouldError : Bool
  expectedErrorMsg : String
  expectedResponse : RecoveryStartResponse

/-- The value `successfullStartResponse` of the test. -/
def successfullStartResponse : RecoveryStartResponse :=
  { Code := 200, Message := "Automated recovery started" }

/-- The handler of the case "should call the correct endpoint". -/
def handleCorrectEndpoint (r : Request) : Handled :=
  { assertions := [r.Path == "/v1/cloud_storage/automated_recovery"]
    answer := .response 200 (encodeRecoveryStartResponse successfullStartResponse) }

/-- The handler of the case "should have content-type application-json". -/
def handleContentType (r : Request) : Handled :=
  { assertions := [r.headerGet "Content-Type" == "application/json"]
    answer := .response 200 (encodeRecoveryStartResponse successfullStartResponse) }

/-- The handler of the case "should request recovery of all topics": the body
must decode as `RecoveryRequestParams`, with the pattern `.*`. -/
def handleAllTopics (r : Request) : Handled :=
  { assertions :=
      match decodeRecoveryRequestParams r.Body with
      | none => [false]
      | some params => [true, params.TopicNamesPattern == ".*"]
    answer := .response 200 (encodeRecoveryStartResponse successfullStartResponse) }

/-- The list `tests` of `TestStartAutomatedRecovery`. -/
def tests : List requestTestCase :=
  [ { name := "should call the correct endpoint"
      testFn := some handleCorrectEndpoint
      shouldError := false
      expectedErrorMsg := ""
      expectedResponse := successfullStartResponse },
    { name := "should have content-type application-json"
      testFn := some handleContentType
      shouldError := false
      expectedErrorMsg := ""
      expectedResponse := successfullStartResponse },
    { name := "should request recovery of all topics"
      testFn := some handleAllTopics
      shouldError := false
      expectedErrorMsg := ""
      expectedResponse := successfullStartResponse } ]

/-- Whether the characters `sub` open the characters `cs`. -/
def opensWith : List Char → List Char → Bool
  | _, [] => true
  | [], _ :: _ => false
  | c :: cs, d :: ds => c == d && opensWith cs ds

/-- The check `assert.Contains` on two strings. -/
def containsText : List Char → List Char → Bool
  | [], sub => sub.isEmpty
  | c :: cs, sub => opensWith (c :: cs) sub || containsText cs sub

/-- The closure `runTest` of the test, on the modelled client: whether every
assertion of the handler and of `runTest` holds. Without a handler the base URL
is one that does not exist, and the transport fails. -/
def runTest (test : requestTestCase) : Bool :=
  let send : Request → TransportResult :=
    match test.testFn with
    | some fn => fun r => (fn r).answer
    | none => fun _ => .failure "no such host: non-existent-url"
  let handled : List Bool :=
    match test.testFn with
    | some fn => (fn (startAutomatedRecoveryRequest ".*")).assertions
    | none => []
  handled.all id &&
    match StartAutomatedRecovery send ".*" with
    | .error err => test.shouldError && containsText err.Error.data test.expectedErrorMsg.data
    | .ok response => !test.shouldError && response == test.expectedResponse

/-! ## Processes -/

/-- What a run of a command does, in order. -/
inductive Event where
  | loadConfig
  | newClient
  | startAutomatedRecovery (pattern : String)
  | pollAutomatedRecoveryStatus
  | decodeGenericErrorBody (body : String)
  | stdout (s : String)
  | die (msg : String)
  deriving DecidableEq

/-- A process: its log so far and either a value or the code it exited with. -/
inductive Proc (α : Type) where
  | running (log : List Event) (a : α)
  | exited (log : List Event) (code : Nat)

/-- Sequencing: an exited process runs nothing more. -/
def Proc.bind {α β : Type} (p : Proc α) (f : α → Proc β) : Proc β :=
  match p with
  | .exited log code => .exited log code
  | .running log a =>
    match f a with
    | .running log2 b => .running (log ++ log2) b
    | .exited log2 code => .exited (log ++ log2) code

instance : Monad Proc where
  pure a := .running [] a
  bind := Proc.bind

/-- The log of a process. -/
def Proc.log {α : Type} : Proc α → List Event
  | .running log _ => log
  | .exited log _ => log

/-- The exit code of a process: a command whose `Run` returns exits with 0. -/
def Proc.exitCode {α : Type} : Proc α → Nat
  | .running _ _ => 0
  | .exited _ code => code

/-- Record one event. -/
def emit (e : Event) : Proc Unit := .running [e] ()

/-- Modelled from the spec: `out.Die`, the "die with message" primitive (the
package `out` is not among the sources): the process terminates with a non-zero
status and the formatted message. -/
def Die {α : Type} (msg : String) : Proc α := .exited [.die msg] 1

/-- Modelled from the spec: `out.MaybeDie(err, format, err)` (the package `out`
is not among the sources): dies with the message formatted from `err` when
`err` is not nil, and does nothing otherwise. -/
def MaybeDie (err : Option GoError) (msg : GoError → String) : Proc Unit :=
  match err with
  | none => pure ()
  | some e => Die (msg e)

/-- The statement `fmt.Printf(s)`. -/
def Printf (s : String) : Proc Unit := emit (.stdout s)

/-- The pattern `v, err := f(); out.MaybeDie(err, format, err)`: the value when
`err` is nil. -/
def valueOrDie {α : Type} (r : Except GoError α) (msg : GoError → String) : Proc α :=
  match r with
  | .ok v => pure v
  | .error e => Die (msg e)

/-! ## Collaborators -/

/-- The collaborators of the command layer, none of which is among the sources:
`p.Load(fs)`, `admin.NewClient(fs, cfg)`, the two client operations and
`he.DecodeGenericErrorBody()` (a function of the body of `he`). -/
structure Env (Config Client : Type) where
  Load : Except GoError Config
  NewClient : Config → Except GoError Client
  StartAutomatedRecovery : Client → String → Except GoError RecoveryStartResponse
  PollAutomatedRecoveryStatus : Client → Except GoError RecoveryStatus
  DecodeGenericErrorBody : String → Except GoError GenericErrorBody

/-! ## Commands -/

/-- What the `Run` field of a command is. -/
inductive Action where
  | none
  | start
  | status
  deriving DecidableEq

/-- A `cobra.Command`: `Use`, `Short`, `Long`, what `Run` is, the names of its
flags, and the commands added with `AddCommand`. -/
inductive Command where
  | mk (Use Short Long : String) (Run : Action) (flags : List String)
      (commands : List Command)

/-- The field `Use`. -/
def Command.Use : Command → String
  | .mk u _ _ _ _ _ => u

/-- The field `Run`. -/
def Command.Run : Command → Action
  | .mk _ _ _ r _ _ => r

/-- The commands added with `AddCommand`. -/
def Command.Commands : Command → List Command
  | .mk _ _ _ _ _ cs => cs

/-- The method `Name()` of cobra: `Use` up to its first space. -/
def Command.Name (c : Command) : String :=
  String.mk (c.Use.data.takeWhile (fun ch => ch != ' '))

/-- The subcommand a word of the command line selects: the first added command
of that name. -/
def Command.find (c : Command) (name : String) : Option Command :=
  c.Commands.find? (fun sub => sub.Name == name)

/-- The value of a cobra `StringVar` flag after parsing: the default when the
flag is not on the command line, the given value otherwise. -/
def stringVar (flag : Option String) (default : String) : String :=
  match flag with
  | none => default
  | some v => v

/-- The value of `topicNamePattern` (start.go, lines 23 and 59). -/
def topicNamePattern (flag : Option String) : String :=
  stringVar flag ".*"

/-- The function `newStartCommand` of start.go, without its `Run` closure. -/
def newStartCommand : Command :=
  .mk "start" "Start the autorestore process" "" .start ["topic-name-pattern"] []

/-- The function `newStatusCommand` of status.go, without its `Run` closure. -/
def newStatusCommand : Command :=
  .mk "start" "Fetch the status of the autorestore process" "" .status [] []

/-- The function `NewCommand` of autorestore.go. -/
def NewCommand : Command :=
  .mk "autorestore" "Interact with the autorestore process" "" .none []
    [newStartCommand]

/-- The call `client.StartAutomatedRecovery(cmd.Context(), pattern)` (start.go,
line 37): the call is recorded with the pattern it hands to the client, and
gives what the client answers to that pattern. -/
def callStartAutomatedRecovery {Config Client : Type} (env : Env Config Client)
    (client : Client) (pattern : String) : Proc (Except GoError RecoveryStartResponse) :=
  .running [.startAutomatedRecovery pattern] (env.StartAutomatedRecovery client pattern)

/-- The `Run` closure of `newStartCommand` (start.go, lines 29 to 56); `flag` is
the value of `--topic-name-pattern` on the command line, if given. -/
def startRun {Config Client : Type} (env : Env Config Client) (flag : Option String) :
    Proc Unit := do
  emit .loadConfig
  let cfg ← valueOrDie env.Load (fun err => "unable to load config: " ++ err.Error)
  emit .newClient
  let client ← valueOrDie (env.NewClient cfg)
    (fun err => "unable to initialize admin client: " ++ err.Error)
  let res ← callStartAutomatedRecovery env client (topicNamePattern flag)
  let err := errOf res
  match errorsAs err with
  | some he =>
    if he.StatusCode = 404 then
      emit (.decodeGenericErrorBody he.Body)
      match env.DecodeGenericErrorBody he.Body with
      | .ok body => Die ("Not found: " ++ body.Message)
      | .error _ => pure ()
    else if he.StatusCode = 400 then
      emit (.decodeGenericErrorBody he.Body)
      match env.DecodeGenericErrorBody he.Body with
      | .ok body => Die ("Cannot start auto-restore: " ++ body.Message)
      | .error _ => pure ()
    else pure ()
  | none => pure ()
  MaybeDie err (fun err => "error starting auto-restore: " ++ err.Error)
  Printf "Successfully started auto-restore\n"

/-- The `Run` closure of `newStatusCommand` (status.go, lines 27 to 39). -/
def statusRun {Config Client : Type} (env : Env Config Client) : Proc Unit := do
  emit .loadConfig
  let cfg ← valueOrDie env.Load (fun err => "unable to load config: " ++ err.Error)
  emit .newClient
  let client ← valueOrDie (env.NewClient cfg)
    (fun err => "unable to initialize admin client: " ++ err.Error)
  emit .pollAutomatedRecoveryStatus
  let status ← valueOrDie (env.PollAutomatedRecoveryStatus client)
    (fun err => "unable to fetch auto-restore status: " ++ err.Error)
  Printf ("Auto-restore status: " ++ status.State ++ "\n")

/-- The line the `start` command prints on success. -/
def successLine : Event := .stdout "Successfully started auto-restore\n"

/-! ## Reading a run -/

/-- The message a process died with: the last entry of the log of a process
that exited with a non-zero code. -/
def Proc.dieMessage {α : Type} : Proc α → Option String
  | .running _ _ => none
  | .exited log code =>
    match log.getLast? with
    | some (.die msg) => if code = 0 then none else some msg
    | _ => none

/-- Whether `Run` returned (the process did not die). -/
def Proc.returned {α : Type} : Proc α → Bool
  | .running _ _ => true
  | .exited _ _ => false

/-- The patterns a run passed to `StartAutomatedRecovery`, one per call. -/
def patternsPassed : List Event → List String
  | [] => []
  | .startAutomatedRecovery p :: es => p :: patternsPassed es
  | _ :: es => patternsPassed es

/-- The bodies a run decoded as a generic error body, one per call. -/
def bodiesDecoded : List Event → List String
  | [] => []
  | .decodeGenericErrorBody b :: es => b :: bodiesDecoded es
  | _ :: es => bodiesDecoded es

/-- Whether config loading and client construction both returned a nil error. -/
def setupOk {Config Client : Type} (env : Env Config Client) : Bool :=
  match env.Load with
  | .error _ => false
  | .ok cfg =>
    match env.NewClient cfg with
    | .error _ => false
    | .ok _ => true

/-- Whether config loading, client construction and `StartAutomatedRecovery`
(called with the pattern of the flag) all returned a nil error. -/
def allNil {Config Client : Type} (env : Env Config Client) (flag : Option String) : Bool :=
  match env.Load with
  | .error _ => false
  | .ok cfg =>
    match env.NewClient cfg with
    | .error _ => false
    | .ok client =>
      match env.StartAutomatedRecovery client (topicNamePattern flag) with
      | .error _ => false
      | .ok _ => true

/-- The run of `start` with `flag` hands the pattern `p` to the client `client`,
once, and nothing else:

* one call of `StartAutomatedRecovery` is recorded, and its pattern is `p`;
* the run reads the client at `p` only: with another client that gives the same
  answer to `p` (whatever it answers to other patterns) the run is the same;
* the answer to `p` decides the run: the success line is printed exactly when
  that answer has a nil error;
* when that answer is an error that is no HTTP response error, the process dies
  with the text of that error. -/
def PassesToClient {Config Client : Type} (env : Env Config Client) (flag : Option String)
    (client : Client) (p : String) : Prop :=
  patternsPassed (startRun env flag).log = [p]
    ∧ (∀ env2 : Env Config Client, env2.Load = env.Load → env2.NewClient = env.NewClient →
        env2.DecodeGenericErrorBody = env.DecodeGenericErrorBody →
        env2.StartAutomatedRecovery client p = env.StartAutomatedRecovery client p →
        startRun env2 flag = startRun env flag)
    ∧ (successLine ∈ (startRun env flag).log ↔
        ∃ r, env.StartAutomatedRecovery client p = .ok r)
    ∧ (∀ e, env.StartAutomatedRecovery client p = .error e → errorsAs (some e) = none →
        (startRun env flag).dieMessage
          = some ("error starting auto-restore: " ++ e.Error))

/-- An environment over the modelled client: configuration and client are
always available, `StartAutomatedRecovery` is the modelled client over the
transport `send`, polling gives `poll`, and error bodies are decoded as JSON. -/
def clientEnv (send : Request → TransportResult) (poll : Except GoError RecoveryStatus) :
    Env Unit Unit :=
  { Load := .ok ()
    NewClient := fun _ => .ok ()
    StartAutomatedRecovery := fun _ pattern => StartAutomatedRecovery send pattern
    PollAutomatedRecoveryStatus := fun _ => poll
    DecodeGenericErrorBody := decodeGenericErrorBody }

/-- The error body `{"message":"not found"}`. -/
def notFoundBody : String := "\x7b\"message\":\"not found\"\x7d"

/-- The error body `{"message":"recovery already running"}`. -/
def alreadyRunningBody : String := "\x7b\"message\":\"recovery already running\"\x7d"

/-- The success body `{"code":200,"message":"Automated recovery started"}`. -/
def startedBody : String := "\x7b\"code\":200,\"message\":\"Automated recovery started\"\x7d"

/-- A server that answers every request with the given status and body. -/
def answer (status : Int) (body : String) : Request → TransportResult :=
  fun _ => .response status body

/-- The cluster answers 404 with the body `{"message":"not found"}`. -/
def notFoundEnv : Env Unit Unit :=
  clientEnv (answer 404 notFoundBody) (.ok ⟨"inactive"⟩)

/-- The cluster answers 400 with the body `{"message":"recovery already running"}`. -/
def alreadyRunningEnv : Env Unit Unit :=
  clientEnv (answer 400 alreadyRunningBody) (.ok ⟨"inactive"⟩)

/-- The cluster answers 404 with a body that is not JSON. -/
def goneEnv : Env Unit Unit :=
  clientEnv (answer 404 "<html>gone</html>") (.ok ⟨"inactive"⟩)

/-- The cluster answers 200 with the body
`{"code":200,"message":"Automated recovery started"}`; its recovery is running. -/
def startedEnv : Env Unit Unit :=
  clientEnv (answer 200 startedBody) (.ok ⟨"running"⟩)

/-- The cluster cannot be reached when polling. -/
def unreachableEnv : Env Unit Unit :=
  clientEnv (answer 200 startedBody) (.error (.other "connection refused"))

/-- A client that answers every start request with an error that names the
pattern it received. -/
def echoEnv : Env Unit Unit :=
  { Load := .ok ()
    NewClient := fun _ => .ok ()
    StartAutomatedRecovery := fun _ pattern =>
      .error (.other ("client received [" ++ pattern ++ "]"))
    PollAutomatedRecoveryStatus := fun _ => .ok ⟨"inactive"⟩
    DecodeGenericErrorBody := decodeGenericErrorBody }

/-! ## The `start` command -/

/-- C1. In `start`, when `StartAutomatedRecovery` returns an error that is an
HTTP response error with status 404 whose body decodes as a generic error body
with message `m`, the process dies (exit code 1, not 0) with exactly the message
`"Not found: " ++ m`, after exactly one decoding, and the success line is not
printed. -/
theorem start_404_dies_not_found {Config Client : Type} (env : Env Config Client)
    (flag : Option String) (cfg : Config) (client : Client) (err : GoError)
    (he : HTTPResponseError) (m : String)
    (hload : env.Load = .ok cfg) (hclient : env.NewClient cfg = .ok client)
    (hstart : env.StartAutomatedRecovery client (topicNamePattern flag) = .error err)
    (has : errorsAs (some err) = some he) (hstatus : he.StatusCode = 404)
    (hbody : env.DecodeGenericErrorBody he.Body = .ok ⟨m⟩) :
    startRun env flag = .exited [.loadConfig, .newClient,
        .startAutomatedRecovery (topicNamePattern flag), .decodeGenericErrorBody he.Body,
        .die ("Not found: " ++ m)] 1
      ∧ (startRun env flag).dieMessage = some ("Not found: " ++ m)
      ∧ (startRun env flag).exitCode ≠ 0
      ∧ successLine ∉ (startRun env flag).log := by
  have h : startRun env flag = .exited [.loadConfig, .newClient,
      .startAutomatedRecovery (topicNamePattern flag), .decodeGenericErrorBody he.Body,
      .die ("Not found: " ++ m)] 1 := by
    simp [startRun, callStartAutomatedRecovery,
      bind, Proc.bind, valueOrDie, hload, hclient, hstart, emit, Die, pure, errOf,
      has, hstatus, hbody]
  rw [h]
  simp [Proc.dieMessage, Proc.exitCode, Proc.log, successLine]

/-- C1, at the body `{"message":"not found"}` answered with status 404: the
message is `Not found: not found`. -/
theorem start_404_dies_not_found_witness :
    (startRun notFoundEnv none).dieMessage = some "Not found: not found"
      ∧ (startRun notFoundEnv none).exitCode ≠ 0
      ∧ successLine ∉ (startRun notFoundEnv none).log :=
  (start_404_dies_not_found notFoundEnv none () ()
    (.httpResponse ⟨404, notFoundBody, "request failed, body: " ++ notFoundBody⟩)
    ⟨404, notFoundBody, "request failed, body: " ++ notFoundBody⟩
    "not found" rfl rfl rfl rfl rfl rfl).2

/-- C2. In `start`, when `StartAutomatedRecovery` returns an error that is an
HTTP response error with status 400 whose body decodes as a generic error body
with message `m`, the process dies (exit code 1, not 0) with the message
`"Cannot start auto-restore: " ++ m`, after exactly one decoding, and the
success line is not printed. -/
theorem start_400_dies_cannot_start {Config Client : Type} (env : Env Config Client)
    (flag : Option String) (cfg : Config) (client : Client) (err : GoError)
    (he : HTTPResponseError) (m : String)
    (hload : env.Load = .ok cfg) (hclient : env.NewClient cfg = .ok client)
    (hstart : env.StartAutomatedRecovery client (topicNamePattern flag) = .error err)
    (has : errorsAs (some err) = some he) (hstatus : he.StatusCode = 400)
    (hbody : env.DecodeGenericErrorBody he.Body = .ok ⟨m⟩) :
    startRun env flag = .exited [.loadConfig, .newClient,
        .startAutomatedRecovery (topicNamePattern flag), .decodeGenericErrorBody he.Body,
        .die ("Cannot start auto-restore: " ++ m)] 1
      ∧ (startRun env flag).dieMessage = some ("Cannot start auto-restore: " ++ m)
      ∧ (startRun env flag).exitCode ≠ 0
      ∧ successLine ∉ (startRun env flag).log := by
  have h : startRun env flag = .exited [.loadConfig, .newClient,
      .startAutomatedRecovery (topicNamePattern flag), .decodeGenericErrorBody he.Body,
      .die ("Cannot start auto-restore: " ++ m)] 1 := by
    simp [startRun, callStartAutomatedRecovery,
      bind, Proc.bind, valueOrDie, hload, hclient, hstart, emit, Die, pure, errOf,
      has, hstatus, hbody]
  rw [h]
  simp [Proc.dieMessage, Proc.exitCode, Proc.log, successLine]

/-- C2, at the body `{"message":"recovery already running"}` answered with
status 400: the message is `Cannot start auto-restore: ` followed by
`recovery already running`. -/
theorem start_400_dies_cannot_start_witness :
    (startRun alreadyRunningEnv none).dieMessage
        = some "Cannot start auto-restore: recovery already running"
      ∧ (startRun alreadyRunningEnv none).exitCode ≠ 0
      ∧ successLine ∉ (startRun alreadyRunningEnv none).log :=
  (start_400_dies_cannot_start alreadyRunningEnv none () ()
    (.httpResponse ⟨400, alreadyRunningBody, "request failed, body: " ++ alreadyRunningBody⟩)
    ⟨400, alreadyRunningBody, "request failed, body: " ++ alreadyRunningBody⟩
    "recovery already running" rfl rfl rfl rfl rfl rfl).2

/-- C3. In `start`, when `StartAutomatedRecovery` returns an error that is not a
404 or 400 HTTP response error with a decodable generic body (a 404 or 400 whose
body does not decode, an HTTP response error of another status, or an error that
is no HTTP response error), the process dies (exit code 1, not 0) with the
message `"error starting auto-restore: "` followed by the text of that error,
the success line is not printed, and unless the error is an HTTP response error
of status 404 or 400 no body is decoded. -/
theorem start_other_error_passes_through {Config Client : Type} (env : Env Config Client)
    (flag : Option String) (cfg : Config) (client : Client) (err : GoError)
    (hload : env.Load = .ok cfg) (hclient : env.NewClient cfg = .ok client)
    (hstart : env.StartAutomatedRecovery client (topicNamePattern flag) = .error err)
    (hnot : ∀ he, errorsAs (some err) = some he →
      he.StatusCode = 404 ∨ he.StatusCode = 400 →
      ∃ e, env.DecodeGenericErrorBody he.Body = .error e) :
    (startRun env flag).dieMessage = some ("error starting auto-restore: " ++ err.Error)
      ∧ (startRun env flag).exitCode ≠ 0
      ∧ successLine ∉ (startRun env flag).log
      ∧ (∀ msg, Event.die msg ∈ (startRun env flag).log →
          msg = "error starting auto-restore: " ++ err.Error)
      ∧ ((∀ he, errorsAs (some err) = some he →
            he.StatusCode ≠ 404 ∧ he.StatusCode ≠ 400) →
          bodiesDecoded (startRun env flag).log = []) := by
  cases has : errorsAs (some err) with
  | none =>
    have h : startRun env flag = .exited [.loadConfig, .newClient,
        .startAutomatedRecovery (topicNamePattern flag),
        .die ("error starting auto-restore: " ++ err.Error)] 1 := by
      simp [startRun, callStartAutomatedRecovery,
        bind, Proc.bind, valueOrDie, hload, hclient, hstart, emit, Die, pure,
        errOf, has, MaybeDie]
    rw [h]
    simp [Proc.dieMessage, Proc.exitCode, Proc.log, successLine, bodiesDecoded]
  | some he =>
    by_cases h404 : he.StatusCode = 404
    · obtain ⟨e, he1⟩ := hnot he has (Or.inl h404)
      have h : startRun env flag = .exited [.loadConfig, .newClient,
          .startAutomatedRecovery (topicNamePattern flag), .decodeGenericErrorBody he.Body,
          .die ("error starting auto-restore: " ++ err.Error)] 1 := by
        simp [startRun, callStartAutomatedRecovery,
          bind, Proc.bind, valueOrDie, hload, hclient, hstart, emit, Die, pure,
          errOf, has, MaybeDie, h404, he1]
      rw [h]
      simp [Proc.dieMessage, Proc.exitCode, Proc.log, successLine, bodiesDecoded, h404]
    · by_cases h400 : he.StatusCode = 400
      · obtain ⟨e, he1⟩ := hnot he has (Or.inr h400)
        have h : startRun env flag = .exited [.loadConfig, .newClient,
            .startAutomatedRecovery (topicNamePattern flag), .decodeGenericErrorBody he.Body,
            .die ("error starting auto-restore: " ++ err.Error)] 1 := by
          simp [startRun, callStartAutomatedRecovery,
            bind, Proc.bind, valueOrDie, hload, hclient, hstart, emit, Die, pure,
            errOf, has, MaybeDie, h400, he1]
        rw [h]
        simp [Proc.dieMessage, Proc.exitCode, Proc.log, successLine, bodiesDecoded, h400]
      · have h : startRun env flag = .exited [.loadConfig, .newClient,
            .startAutomatedRecovery (topicNamePattern flag),
            .die ("error starting auto-restore: " ++ err.Error)] 1 := by
          simp [startRun, callStartAutomatedRecovery,
            bind, Proc.bind, valueOrDie, hload, hclient, hstart, emit, Die, pure,
            errOf, has, MaybeDie, h404, h400]
        rw [h]
        simp [Proc.dieMessage, Proc.exitCode, Proc.log, successLine, bodiesDecoded]

/-- C3, at a 404 answer whose body is not JSON: the raw error text is passed on. -/
theorem start_other_error_passes_through_witness :
    (startRun goneEnv none).dieMessage
        = some "error starting auto-restore: request failed, body: <html>gone</html>"
      ∧ (startRun goneEnv none).exitCode ≠ 0 :=
  have h := start_other_error_passes_through goneEnv none () ()
    (.httpResponse ⟨404, "<html>gone</html>", "request failed, body: <html>gone</html>"⟩)
    rfl rfl rfl (fun he has _ => by cases has; exact ⟨_, rfl⟩)
  ⟨h.1, h.2.1⟩

/-- How every run of `start` ends, by what the three fallible calls return. -/
theorem startRun_cases {Config Client : Type} (env : Env Config Client)
    (flag : Option String) :
    (allNil env flag = true ∧ setupOk env = true ∧
        startRun env flag = .running [.loadConfig, .newClient,
          .startAutomatedRecovery (topicNamePattern flag), successLine] ())
      ∨ (allNil env flag = false ∧ setupOk env = true ∧ ∃ (decoded : List String) (msg : String),
          startRun env flag = .exited (.loadConfig :: .newClient ::
            .startAutomatedRecovery (topicNamePattern flag) ::
            (decoded.map Event.decodeGenericErrorBody ++ [.die msg])) 1)
      ∨ (allNil env flag = false ∧ setupOk env = false ∧ ∃ msg,
          startRun env flag = .exited [.loadConfig, .die msg] 1
            ∨ startRun env flag = .exited [.loadConfig, .newClient, .die msg] 1) := by
  cases hload : env.Load with
  | error e =>
    refine Or.inr (Or.inr ⟨by simp [allNil, hload], by simp [setupOk, hload],
      "unable to load config: " ++ e.Error, Or.inl ?_⟩)
    simp [startRun, callStartAutomatedRecovery, bind, Proc.bind, valueOrDie, hload, emit, Die]
  | ok cfg =>
    cases hclient : env.NewClient cfg with
    | error e =>
      refine Or.inr (Or.inr ⟨by simp [allNil, hload, hclient], by simp [setupOk, hload, hclient],
        "unable to initialize admin client: " ++ e.Error, Or.inr ?_⟩)
      simp [startRun, callStartAutomatedRecovery,
        bind, Proc.bind, valueOrDie, hload, hclient, emit, Die, pure]
    | ok client =>
      cases hstart : env.StartAutomatedRecovery client (topicNamePattern flag) with
      | ok r =>
        refine Or.inl ⟨by simp [allNil, hload, hclient, hstart], by simp [setupOk, hload, hclient],
          ?_⟩
        simp [startRun, callStartAutomatedRecovery,
          bind, Proc.bind, valueOrDie, hload, hclient, hstart, emit, pure, errOf,
          errorsAs, MaybeDie, Printf, successLine]
      | error err =>
        refine Or.inr (Or.inl ⟨by simp [allNil, hload, hclient, hstart],
          by simp [setupOk, hload, hclient], ?_⟩)
        cases has : errorsAs (some err) with
        | none =>
          refine ⟨[], "error starting auto-restore: " ++ err.Error, ?_⟩
          simp [startRun, callStartAutomatedRecovery,
            bind, Proc.bind, valueOrDie, hload, hclient, hstart, emit, Die, pure,
            errOf, has, MaybeDie]
        | some he =>
          by_cases h404 : he.StatusCode = 404
          · cases hbody : env.DecodeGenericErrorBody he.Body with
            | ok body =>
              refine ⟨[he.Body], "Not found: " ++ body.Message, ?_⟩
              simp [startRun, callStartAutomatedRecovery,
                bind, Proc.bind, valueOrDie, hload, hclient, hstart, emit, Die,
                pure, errOf, has, MaybeDie, h404, hbody]
            | error e =>
              refine ⟨[he.Body], "error starting auto-restore: " ++ err.Error, ?_⟩
              simp [startRun, callStartAutomatedRecovery,
                bind, Proc.bind, valueOrDie, hload, hclient, hstart, emit, Die,
                pure, errOf, has, MaybeDie, h404, hbody]
          · by_cases h400 : he.StatusCode = 400
            · cases hbody : env.DecodeGenericErrorBody he.Body with
              | ok body =>
                refine ⟨[he.Body], "Cannot start auto-restore: " ++ body.Message, ?_⟩
                simp [startRun, callStartAutomatedRecovery,
                  bind, Proc.bind, valueOrDie, hload, hclient, hstart, emit, Die,
                  pure, errOf, has, MaybeDie, h400, hbody]
              | error e =>
                refine ⟨[he.Body], "error starting auto-restore: " ++ err.Error, ?_⟩
                simp [startRun, callStartAutomatedRecovery,
                  bind, Proc.bind, valueOrDie, hload, hclient, hstart, emit, Die,
                  pure, errOf, has, MaybeDie, h400, hbody]
            · refine ⟨[], "error starting auto-restore: " ++ err.Error, ?_⟩
              simp [startRun, callStartAutomatedRecovery,
                bind, Proc.bind, valueOrDie, hload, hclient, hstart, emit, Die,
                pure, errOf, has, MaybeDie, h404, h400]


theorem patternsPassed_decoded (decoded : List String) (rest : List Event) :
    patternsPassed (decoded.map Event.decodeGenericErrorBody ++ rest) = patternsPassed rest := by
  induction decoded with
  | nil => rfl
  | cons b bs ih => simpa [patternsPassed] using ih

theorem dieMessage_exited_concat {α : Type} (a b c : Event) (log : List Event) (msg : String) :
    (Proc.exited (a :: b :: c :: (log ++ [.die msg])) 1 : Proc α).dieMessage = some msg := by
  have h : a :: b :: c :: (log ++ [Event.die msg]) = (a :: b :: c :: log) ++ [Event.die msg] := by
    simp
  rw [Proc.dieMessage, h, List.getLast?_concat]
  simp

/-- C4. The `start` command prints the success line exactly when config loading,
client construction and `StartAutomatedRecovery` all returned a nil error, and
exactly then `Run` returns and the exit code is 0; in every other case, and only
then, the process dies with a message (exit code not 0, no success line). -/
theorem start_succeeds_iff_all_nil {Config Client : Type} (env : Env Config Client)
    (flag : Option String) :
    (successLine ∈ (startRun env flag).log ↔ allNil env flag = true)
      ∧ ((startRun env flag).returned = true ↔ allNil env flag = true)
      ∧ ((startRun env flag).exitCode = 0 ↔ allNil env flag = true)
      ∧ ((∃ msg, (startRun env flag).dieMessage = some msg) ↔ allNil env flag = false)
      ∧ ((startRun env flag).exitCode ≠ 0 ↔ allNil env flag = false) := by
  rcases startRun_cases env flag with ⟨h1, _, h⟩ | ⟨h1, _, decoded, msg, h⟩ |
    ⟨h1, _, msg, h | h⟩
  · rw [h, h1]
    simp [Proc.log, Proc.returned, Proc.exitCode, Proc.dieMessage]
  · rw [h, h1, dieMessage_exited_concat]
    simp [Proc.log, Proc.returned, Proc.exitCode, successLine]
  · rw [h, h1]
    simp [Proc.log, Proc.returned, Proc.exitCode, Proc.dieMessage, successLine]
  · rw [h, h1]
    simp [Proc.log, Proc.returned, Proc.exitCode, Proc.dieMessage, successLine]

/-- The patterns a run of `start` passes to the client. -/
theorem patternsPassed_startRun {Config Client : Type} (env : Env Config Client)
    (flag : Option String) :
    patternsPassed (startRun env flag).log
      = (if setupOk env then [topicNamePattern flag] else []) := by
  rcases startRun_cases env flag with ⟨_, h2, h⟩ | ⟨_, h2, decoded, msg, h⟩ |
    ⟨_, h2, msg, h | h⟩
  · rw [h, h2]; simp [Proc.log, patternsPassed, successLine]
  · rw [h, h2]
    simp only [Proc.log, patternsPassed]
    rw [patternsPassed_decoded]
    simp [patternsPassed]
  · rw [h, h2]; simp [Proc.log, patternsPassed]
  · rw [h, h2]; simp [Proc.log, patternsPassed]

/-- Once configuration and client are available, a run of `start` hands the
value of `topicNamePattern` to the client, once, and nothing else. -/
theorem passesToClient_startRun {Config Client : Type} (env : Env Config Client)
    (flag : Option String) (cfg : Config) (client : Client)
    (hload : env.Load = .ok cfg) (hclient : env.NewClient cfg = .ok client) :
    PassesToClient env flag client (topicNamePattern flag) := by
  refine ⟨?_, ?_, ?_, ?_⟩
  · rw [patternsPassed_startRun]
    simp [setupOk, hload, hclient]
  · intro env2 hL hN hD hS
    simp [startRun, callStartAutomatedRecovery, bind, Proc.bind, valueOrDie, hL, hN, hD, hS,
      hload, hclient, pure]
  · cases hstart : env.StartAutomatedRecovery client (topicNamePattern flag) with
    | ok r =>
      have h : startRun env flag = .running [.loadConfig, .newClient,
          .startAutomatedRecovery (topicNamePattern flag), successLine] () := by
        simp [startRun, callStartAutomatedRecovery, bind, Proc.bind, valueOrDie, hload, hclient,
          hstart, emit, pure, errOf, errorsAs, MaybeDie, Printf, successLine]
      rw [h]
      simp [Proc.log]
    | error err =>
      have hall : allNil env flag = false := by simp [allNil, hload, hclient, hstart]
      rcases startRun_cases env flag with ⟨h1, _, _⟩ | ⟨_, _, decoded, msg, h⟩ |
        ⟨_, h2, _⟩
      · rw [hall] at h1; exact absurd h1 (by decide)
      · rw [h]
        simp [Proc.log, successLine]
      · have : setupOk env = true := by simp [setupOk, hload, hclient]
        rw [this] at h2; exact absurd h2 (by decide)
  · intro e hstart has
    have h : startRun env flag = .exited [.loadConfig, .newClient,
        .startAutomatedRecovery (topicNamePattern flag),
        .die ("error starting auto-restore: " ++ e.Error)] 1 := by
      simp [startRun, callStartAutomatedRecovery, bind, Proc.bind, valueOrDie, hload, hclient,
        hstart, emit, Die, pure, errOf, has, MaybeDie]
    rw [h]
    simp [Proc.dieMessage]

/-- When config loading or client construction fails, no call of the client is
recorded. -/
theorem patternsPassed_of_setup_failed {Config Client : Type} (env : Env Config Client)
    (flag : Option String) (h : setupOk env = false) :
    patternsPassed (startRun env flag).log = [] := by
  rw [patternsPassed_startRun, h]
  simp

/-- C6. Once configuration and client are available, `start` calls
`StartAutomatedRecovery` exactly once, and the pattern the client receives is
`.*` when the flag `--topic-name-pattern` is omitted and exactly `v` when the
flag is given with value `v`: the one recorded call carries that pattern, the
run reads the client at that pattern only, and what the client answers to that
pattern decides the run. (When config loading or client construction fails the
process has died before any call.) -/
theorem start_passes_flag_pattern {Config Client : Type} (env : Env Config Client)
    (cfg : Config) (client : Client)
    (hload : env.Load = .ok cfg) (hclient : env.NewClient cfg = .ok client) :
    PassesToClient env none client ".*"
      ∧ (∀ v : String, PassesToClient env (some v) client v)
      ∧ (∀ (env2 : Env Config Client) (flag : Option String), setupOk env2 = false →
          patternsPassed (startRun env2 flag).log = []) :=
  ⟨passesToClient_startRun env none cfg client hload hclient,
    fun v => passesToClient_startRun env (some v) cfg client hload hclient,
    fun env2 flag h => patternsPassed_of_setup_failed env2 flag h⟩

/-- C6, at a client that names the pattern it received: with the flag omitted
one call is recorded, with `.*`, and the client received `.*`. -/
theorem start_passes_flag_pattern_witness :
    patternsPassed (startRun echoEnv none).log = [".*"]
      ∧ (startRun echoEnv none).dieMessage
          = some "error starting auto-restore: client received [.*]" :=
  have h := (start_passes_flag_pattern echoEnv () () rfl rfl).1
  ⟨h.1, h.2.2.2 (.other "client received [.*]") rfl rfl⟩

/-- C10, as amended. Once configuration and client are available: when the flag
`--topic-name-pattern` is omitted or given with a non-empty value, the pattern
the client receives (the value of `topicNamePattern`, which is `.*` when the
flag is omitted) is non-empty; an empty value given on the command line is
handed to the client as it is. -/
theorem start_pattern_nonempty {Config Client : Type} (env : Env Config Client)
    (flag : Option String) (cfg : Config) (client : Client)
    (hload : env.Load = .ok cfg) (hclient : env.NewClient cfg = .ok client)
    (hflag : flag ≠ some "") :
    topicNamePattern flag ≠ ""
      ∧ PassesToClient env flag client (topicNamePattern flag)
      ∧ topicNamePattern none = ".*"
      ∧ PassesToClient env (some "") client "" := by
  refine ⟨?_, passesToClient_startRun env flag cfg client hload hclient, rfl,
    passesToClient_startRun env (some "") cfg client hload hclient⟩
  cases flag with
  | none => decide
  | some v =>
    intro hv
    apply hflag
    simpa [topicNamePattern, stringVar] using hv

/-- C10, as amended, at the omitted flag and a client that names the pattern it
received: the pattern is not empty, and the client received `.*`. -/
theorem start_pattern_nonempty_witness :
    (none : Option String) ≠ some ""
      ∧ topicNamePattern none ≠ ""
      ∧ patternsPassed (startRun echoEnv none).log = [".*"]
      ∧ (startRun echoEnv none).dieMessage
          = some "error starting auto-restore: client received [.*]" :=
  have h := start_pattern_nonempty echoEnv none () () rfl rfl (by decide)
  ⟨by decide, h.1, h.2.1.1, h.2.1.2.2.2 (.other "client received [.*]") rfl rfl⟩

/-- C10, as stated, fails: with `--topic-name-pattern ""` on the command line
the one call of `StartAutomatedRecovery` carries the empty string, and a client
that names the pattern it received has received the empty string. -/
theorem start_passes_empty_pattern :
    patternsPassed (startRun echoEnv (some "")).log = [""]
      ∧ (startRun echoEnv (some "")).dieMessage
          = some "error starting auto-restore: client received []"
      ∧ ¬ (∀ p ∈ patternsPassed (startRun echoEnv (some "")).log, p ≠ "") := by
  refine ⟨by decide, by decide, ?_⟩
  intro h
  exact h "" (by decide) rfl

/-! ## The `status` command -/

/-- C7. In `status`, once configuration and client are available: when
`PollAutomatedRecoveryStatus` returns a snapshot with state `s` and a nil error,
the command prints exactly `"Auto-restore status: " ++ s ++ "\n"` and returns;
when it returns an error the process dies (exit code 1) with
`"unable to fetch auto-restore status: "` followed by the error text, and
nothing is printed. -/
theorem status_prints_state {Config Client : Type} (env : Env Config Client)
    (cfg : Config) (client : Client)
    (hload : env.Load = .ok cfg) (hclient : env.NewClient cfg = .ok client) :
    statusRun env =
      match env.PollAutomatedRecoveryStatus client with
      | .ok status => .running [.loadConfig, .newClient, .pollAutomatedRecoveryStatus,
          .stdout ("Auto-restore status: " ++ status.State ++ "\n")] ()
      | .error err => .exited [.loadConfig, .newClient, .pollAutomatedRecoveryStatus,
          .die ("unable to fetch auto-restore status: " ++ err.Error)] 1 := by
  cases hpoll : env.PollAutomatedRecoveryStatus client with
  | ok status =>
    simp [statusRun, bind, Proc.bind, valueOrDie, hload, hclient, hpoll, emit, pure, Printf]
  | error err =>
    simp [statusRun, bind, Proc.bind, valueOrDie, hload, hclient, hpoll, emit, pure, Die]

/-- C7, at the state `running` and at a transport error. -/
theorem status_prints_state_witness :
    statusRun startedEnv = .running [.loadConfig, .newClient, .pollAutomatedRecoveryStatus,
        .stdout "Auto-restore status: running\n"] ()
      ∧ statusRun unreachableEnv = .exited [.loadConfig, .newClient,
        .pollAutomatedRecoveryStatus,
        .die "unable to fetch auto-restore status: connection refused"] 1 :=
  ⟨status_prints_state startedEnv () () rfl rfl,
   status_prints_state unreachableEnv () () rfl rfl⟩

/-! ## The command tree -/

/-- C5 fails on the code. `NewCommand` adds one subcommand only, named `start`:
no subcommand is named `status`, so `topic autorestore status` selects nothing.
The command `newStatusCommand` builds is itself named `start` (its `Use` is
`"start"`), so adding it to the tree would not make `status` reachable either. -/
theorem autorestore_has_no_status_subcommand :
    NewCommand.Commands.map Command.Name = ["start"]
      ∧ (NewCommand.find "start").map Command.Run = some .start
      ∧ (NewCommand.find "status").map Command.Run = none
      ∧ newStatusCommand.Name = "start"
      ∧ newStatusCommand.Run = .status
      ∧ ((Command.mk "autorestore" "Interact with the autorestore process" "" .none []
          [newStartCommand, newStatusCommand]).find "status").map Command.Run = none := by
  decide

/-! ## JSON text: what is written is read back -/

namespace Json

theorem hexValue_hexDigit (k : Nat) (hk : k < 16) : hexValue (hexDigit k) = some k := by
  interval_cases k <;> decide

theorem hex4Value_hex4 (n : Nat) (hn : n < 65536) :
    hex4Value (hexDigit (n / 4096 % 16)) (hexDigit (n / 256 % 16)) (hexDigit (n / 16 % 16))
      (hexDigit (n % 16)) = some n := by
  unfold hex4Value
  have h16 : 0 < 16 := by norm_num
  rw [hexValue_hexDigit _ (Nat.mod_lt _ h16), hexValue_hexDigit _ (Nat.mod_lt _ h16),
    hexValue_hexDigit _ (Nat.mod_lt _ h16), hexValue_hexDigit _ (Nat.mod_lt _ h16)]
  simp only [Option.some.injEq]
  omega

theorem needsUnicodeEscape_lt (c : Char) (h : needsUnicodeEscape c = true) : c.toNat < 65536 := by
  simp only [needsUnicodeEscape, Bool.or_eq_true, decide_eq_true_eq] at h
  rcases h with ((((h | h) | h) | h) | h) | h
  · omega
  · subst h; decide
  · subst h; decide
  · subst h; decide
  · omega
  · omega

theorem unquoteBody_cons (c : Char) (rest : List Char) :
    unquoteBody (c :: rest) =
      if c = '"' then some ([], rest)
      else if c = '\\' then
        match rest with
        | [] => none
        | e :: rest2 =>
          if e = 'u' then
            match rest2 with
            | a :: b :: c2 :: d :: rest3 =>
              match hex4Value a b c2 d with
              | some n => (unquoteBody rest3).map (fun r => (Char.ofNat n :: r.1, r.2))
              | none => none
            | _ => none
          else
            match simpleEscape e with
            | some ch => (unquoteBody rest2).map (fun r => (ch :: r.1, r.2))
            | none => none
      else if c.toNat < 32 then none
      else (unquoteBody rest).map (fun r => (c :: r.1, r.2)) := by
  conv_lhs => rw [unquoteBody.eq_def]

theorem unquoteBody_escape (cs rest : List Char) :
    unquoteBody (escape cs ++ '"' :: rest) = some (cs, rest) := by
  induction cs with
  | nil => simp [escape, unquoteBody_cons]
  | cons c cs ih =>
    simp only [escape, List.append_assoc]
    by_cases h1 : c = '"'
    · subst h1
      have e : escapeChar '"' = ['\\', '"'] := by decide
      rw [e, List.cons_append, List.cons_append, List.nil_append, unquoteBody_cons]
      simp [simpleEscape, ih]
    by_cases h2 : c = '\\'
    · subst h2
      have e : escapeChar '\\' = ['\\', '\\'] := by decide
      rw [e, List.cons_append, List.cons_append, List.nil_append, unquoteBody_cons]
      simp [simpleEscape, ih]
    by_cases h3 : c = '\n'
    · subst h3
      have e : escapeChar '\n' = ['\\', 'n'] := by decide
      rw [e, List.cons_append, List.cons_append, List.nil_append, unquoteBody_cons]
      simp [simpleEscape, ih]
    by_cases h4 : c = '\r'
    · subst h4
      have e : escapeChar '\r' = ['\\', 'r'] := by decide
      rw [e, List.cons_append, List.cons_append, List.nil_append, unquoteBody_cons]
      simp [simpleEscape, ih]
    by_cases h5 : c = '\t'
    · subst h5
      have e : escapeChar '\t' = ['\\', 't'] := by decide
      rw [e, List.cons_append, List.cons_append, List.nil_append, unquoteBody_cons]
      simp [simpleEscape, ih]
    by_cases h6 : needsUnicodeEscape c = true
    · have e : escapeChar c = '\\' :: 'u' :: hex4 c.toNat := by
        simp [escapeChar, h1, h2, h3, h4, h5, h6]
      rw [e, hex4]
      simp only [List.cons_append, List.nil_append]
      rw [unquoteBody_cons]
      simp [hex4Value_hex4 _ (needsUnicodeEscape_lt c h6), ih, Char.ofNat_toNat]
    · have e : escapeChar c = [c] := by
        simp [escapeChar, h1, h2, h3, h4, h5, h6]
      have h7 : ¬ c.toNat < 32 := by
        intro h; apply h6; simp [needsUnicodeEscape, h]
      rw [e, List.cons_append, List.nil_append, unquoteBody_cons]
      simp [h1, h2, h7, ih]


theorem digit_facts : ∀ d, d < 10 →
    isDigit (Char.ofNat (48 + d)) = true ∧ (Char.ofNat (48 + d)).toNat - 48 = d := by
  decide

theorem isDigit_ne (c : Char) (h : isDigit c = true) :
    c ≠ '-' ∧ c ≠ '"' ∧ isWs c = false := by
  refine ⟨?_, ?_, ?_⟩
  · rintro rfl; revert h; decide
  · rintro rfl; revert h; decide
  · simp only [isDigit, Bool.and_eq_true, decide_eq_true_eq] at h
    have h1 : c ≠ ' ' := by rintro rfl; revert h; decide
    have h2 : c ≠ '\t' := by rintro rfl; revert h; decide
    have h3 : c ≠ '\n' := by rintro rfl; revert h; decide
    have h4 : c ≠ '\r' := by rintro rfl; revert h; decide
    simp [isWs, h1, h2, h3, h4]

theorem parseDigits_of_not_digit (rest : List Char) (acc : Nat)
    (h : startsWithDigit rest = false) : parseDigits rest acc = (acc, rest) := by
  cases rest with
  | nil => rfl
  | cons c r =>
    simp only [startsWithDigit] at h
    simp [parseDigits, h]

/-- The number a list of digits writes after `acc`. -/
theorem parseDigits_append (xs ys : List Char) (acc : Nat)
    (hx : ∀ c ∈ xs, isDigit c = true) :
    parseDigits (xs ++ ys) acc
      = parseDigits ys (xs.foldl (fun a c => a * 10 + (c.toNat - 48)) acc) := by
  induction xs generalizing acc with
  | nil => rfl
  | cons c cs ih =>
    have hc : isDigit c = true := hx c (List.mem_cons_self _ _)
    simp only [List.cons_append, parseDigits, hc, if_true, List.foldl_cons]
    exact ih _ (fun d hd => hx d (List.mem_cons_of_mem _ hd))

theorem natDigits_isDigit (fuel n : Nat) : ∀ c ∈ natDigits fuel n, isDigit c = true := by
  induction fuel generalizing n with
  | zero => simp [natDigits]
  | succ fuel ih =>
    intro c hc
    unfold natDigits at hc
    split at hc
    · rename_i h
      simp only [List.mem_singleton] at hc
      subst hc
      exact (digit_facts n h).1
    · simp only [List.mem_append, List.mem_singleton] at hc
      rcases hc with hc | hc
      · exact ih _ c hc
      · subst hc
        exact (digit_facts _ (Nat.mod_lt _ (by norm_num))).1

theorem natDigits_ne_nil (fuel n : Nat) : natDigits (fuel + 1) n ≠ [] := by
  unfold natDigits
  split <;> simp

theorem natDigits_value (fuel n : Nat) (h : n < fuel) :
    (natDigits fuel n).foldl (fun a c => a * 10 + (c.toNat - 48)) 0 = n := by
  induction fuel generalizing n with
  | zero => omega
  | succ fuel ih =>
    unfold natDigits
    split
    · rename_i h10
      simp [(digit_facts n h10).2]
    · rename_i h10
      rw [List.foldl_append, ih (n / 10) (by omega)]
      simp only [List.foldl_cons, List.foldl_nil]
      rw [(digit_facts _ (Nat.mod_lt _ (by norm_num))).2]
      omega

theorem encodeNat_cons (n : Nat) :
    ∃ c tl, encodeNat n = c :: tl ∧ isDigit c = true := by
  have hne := natDigits_ne_nil n n
  have hd := natDigits_isDigit (n + 1) n
  unfold encodeNat
  cases hl : natDigits (n + 1) n with
  | nil => exact absurd hl hne
  | cons c tl => exact ⟨c, tl, rfl, hd c (by rw [hl]; exact List.mem_cons_self _ _)⟩

theorem parseDigits_encodeNat (n : Nat) (rest : List Char)
    (h : startsWithDigit rest = false) :
    parseDigits (encodeNat n ++ rest) 0 = (n, rest) := by
  unfold encodeNat
  rw [parseDigits_append _ _ _ (natDigits_isDigit _ _), natDigits_value _ _ (Nat.lt_succ_self n),
    parseDigits_of_not_digit _ _ h]

theorem startsWithDigit_encodeNat (n : Nat) (rest : List Char) :
    startsWithDigit (encodeNat n ++ rest) = true := by
  obtain ⟨c, tl, hc, hd⟩ := encodeNat_cons n
  rw [hc]
  simpa [startsWithDigit] using hd

/-- The first character of a written integer: a minus sign or a digit. -/
theorem encodeInt_cons (i : Int) :
    ∃ c tl, encodeInt i = c :: tl ∧ c ≠ '"' ∧ isWs c = false := by
  unfold encodeInt
  split
  · exact ⟨'-', _, rfl, by decide, by decide⟩
  · obtain ⟨c, tl, hc, hd⟩ := encodeNat_cons i.natAbs
    exact ⟨c, tl, hc, (isDigit_ne c hd).2.1, (isDigit_ne c hd).2.2⟩

theorem parseInt_encodeInt (i : Int) (rest : List Char) (h : startsWithDigit rest = false) :
    parseInt (encodeInt i ++ rest) = some (i, rest) := by
  unfold encodeInt
  split
  · rename_i hneg
    simp only [List.cons_append, parseInt, if_true, startsWithDigit_encodeNat,
      parseDigits_encodeNat _ _ h]
    congr 2
    omega
  · rename_i hpos
    obtain ⟨c, tl, hc, hd⟩ := encodeNat_cons i.natAbs
    have hs := startsWithDigit_encodeNat i.natAbs rest
    have hp := parseDigits_encodeNat i.natAbs rest h
    rw [hc] at hs hp ⊢
    simp only [List.cons_append] at hs hp ⊢
    simp only [parseInt, (isDigit_ne c hd).1, if_false, hs, if_true, hp]
    congr 2
    omega

theorem quote_append (k : String) (rest : List Char) :
    quote k ++ rest = '"' :: (escape k.data ++ '"' :: rest) := by
  simp [quote]

theorem string_mk_data (k : String) : String.mk k.data = k := rfl

theorem skipWs_cons (c : Char) (r : List Char) (h : isWs c = false) :
    skipWs (c :: r) = c :: r := by
  simp [skipWs, h]

theorem skipWs_nil : skipWs [] = [] := rfl

theorem skipWs_quote (r : List Char) : skipWs ('"' :: r) = '"' :: r :=
  skipWs_cons _ _ (by decide)

theorem skipWs_colon (r : List Char) : skipWs (':' :: r) = ':' :: r :=
  skipWs_cons _ _ (by decide)

theorem skipWs_comma (r : List Char) : skipWs (',' :: r) = ',' :: r :=
  skipWs_cons _ _ (by decide)

theorem skipWs_lbrace (r : List Char) : skipWs ('{' :: r) = '{' :: r :=
  skipWs_cons _ _ (by decide)

theorem skipWs_rbrace (r : List Char) : skipWs ('}' :: r) = '}' :: r :=
  skipWs_cons _ _ (by decide)

/-- Reading the last member of an object, a string. -/
theorem parseMembers_string_last (fuel : Nat) (hf : 0 < fuel) (k m : String)
    (rest : List Char) :
    parseMembers fuel (quote k ++ ':' :: (quote m ++ '}' :: rest))
      = some ([(k, .str m)], rest) := by
  obtain ⟨f, rfl⟩ : ∃ f, fuel = f + 1 := ⟨fuel - 1, by omega⟩
  rw [quote_append, quote_append]
  simp [parseMembers, skipWs_quote, skipWs_colon, skipWs_rbrace, unquoteBody_escape, parseValue,
    string_mk_data]

/-- Reading a member that is an integer and is followed by more members. -/
theorem parseMembers_int_more (fuel : Nat) (hf : 0 < fuel) (k : String) (i : Int)
    (rest : List Char) :
    parseMembers fuel (quote k ++ ':' :: (encodeInt i ++ ',' :: rest))
      = (parseMembers (fuel - 1) rest).map (fun p => ((k, .num i) :: p.1, p.2)) := by
  obtain ⟨f, rfl⟩ : ∃ f, fuel = f + 1 := ⟨fuel - 1, by omega⟩
  have hp : parseInt (encodeInt i ++ ',' :: rest) = some (i, ',' :: rest) :=
    parseInt_encodeInt i _ rfl
  obtain ⟨c, tl, hc, hq, hw⟩ := encodeInt_cons i
  rw [quote_append]
  rw [hc] at hp ⊢
  simp only [List.cons_append] at hp ⊢
  simp [parseMembers, skipWs_quote, skipWs_colon, skipWs_comma, skipWs_cons c _ hw,
    unquoteBody_escape, parseValue, string_mk_data, hq, hp]

/-- Reading an object whose first member starts right after the brace. -/
theorem parseObject_of_members (r tl : List Char) (ms : List (String × Value))
    (hr : r = '"' :: tl) (hm : parseMembers (r.length + 1) r = some (ms, [])) :
    parseObject (String.mk ('{' :: r)) = some ms := by
  subst hr
  simp only [List.length_cons] at hm
  simp [parseObject, skipWs_lbrace, skipWs_quote, skipWs_nil, hm]

end Json

/-- Decoding undoes encoding on request bodies. -/
theorem decode_encodeRecoveryRequestParams (r : RecoveryRequestParams) :
    Json.parseObject (encodeRecoveryRequestParams r)
        = some [("topic_names_pattern", .str r.TopicNamesPattern)]
      ∧ decodeRecoveryRequestParams (encodeRecoveryRequestParams r) = some r := by
  have h : Json.parseObject (encodeRecoveryRequestParams r)
      = some [("topic_names_pattern", .str r.TopicNamesPattern)] := by
    unfold encodeRecoveryRequestParams
    refine Json.parseObject_of_members _ _ _ (Json.quote_append _ _) ?_
    exact Json.parseMembers_string_last _ (Nat.succ_pos _) _ _ _
  refine ⟨h, ?_⟩
  simp [decodeRecoveryRequestParams, h, Json.stringField, Json.field]

/-- Decoding undoes encoding on success bodies. -/
theorem decode_encodeRecoveryStartResponse (r : RecoveryStartResponse) :
    decodeRecoveryStartResponse (encodeRecoveryStartResponse r) = some r := by
  have h : Json.parseObject (encodeRecoveryStartResponse r)
      = some [("code", .num r.Code), ("message", .str r.Message)] := by
    unfold encodeRecoveryStartResponse
    refine Json.parseObject_of_members _ _ _ (Json.quote_append _ _) ?_
    rw [Json.parseMembers_int_more _ (Nat.succ_pos _),
      Json.parseMembers_string_last _ (by simp [Json.quote])]
    rfl
  simp [decodeRecoveryStartResponse, h, Json.stringField, Json.intField, Json.field]


/-! ## The recovery client -/

/-- C8. For every non-empty pattern `p`, the request of
`StartAutomatedRecovery(p)` is a POST to `/v1/cloud_storage/automated_recovery`
(whatever `p` is) with header `Content-Type: application/json`, and its body is
the JSON object with the one member `topic_names_pattern`, a string equal to
`p`: decoding the body as `RecoveryRequestParams` gives `TopicNamesPattern = p`.
That request is the only one the operation hands to the transport. -/
theorem start_request_wire_format (p : String) (_hp : p ≠ "") :
    (startAutomatedRecoveryRequest p).Method = "POST"
      ∧ (startAutomatedRecoveryRequest p).Path = "/v1/cloud_storage/automated_recovery"
      ∧ (startAutomatedRecoveryRequest p).headerGet "Content-Type" = "application/json"
      ∧ (startAutomatedRecoveryRequest p).Body
          = String.mk ('{' :: (Json.quote "topic_names_pattern" ++ ':' :: (Json.quote p ++ ['}'])))
      ∧ Json.parseObject (startAutomatedRecoveryRequest p).Body
          = some [("topic_names_pattern", .str p)]
      ∧ decodeRecoveryRequestParams (startAutomatedRecoveryRequest p).Body = some ⟨p⟩
      ∧ ∀ send : Request → TransportResult,
          StartAutomatedRecovery send p
            = interpretStartResult (send (startAutomatedRecoveryRequest p)) :=
  ⟨rfl, rfl, rfl, rfl, (decode_encodeRecoveryRequestParams ⟨p⟩).1,
    (decode_encodeRecoveryRequestParams ⟨p⟩).2, fun _ => rfl⟩

/-- C8, at the pattern `.*`: the body is `{"topic_names_pattern":".*"}`. -/
theorem start_request_wire_format_witness :
    (startAutomatedRecoveryRequest ".*").Path = "/v1/cloud_storage/automated_recovery"
      ∧ (startAutomatedRecoveryRequest ".*").headerGet "Content-Type" = "application/json"
      ∧ (startAutomatedRecoveryRequest ".*").Body = "\x7b\"topic_names_pattern\":\".*\"\x7d"
      ∧ decodeRecoveryRequestParams (startAutomatedRecoveryRequest ".*").Body = some ⟨".*"⟩ :=
  have h := start_request_wire_format ".*" (by decide)
  ⟨h.2.1, h.2.2.1, by decide, h.2.2.2.2.2.1⟩

/-- C9. When the server answers HTTP 200 with the JSON encoding of a
`RecoveryStartResponse` value `r`, `StartAutomatedRecovery` returns `r` and a
nil error. A result is returned only for HTTP 200 (and is then what the body
decodes to); for any other status the operation returns an error that carries
status and body, and for a transport failure it returns the transport error. -/
theorem start_result_only_for_200 (send : Request → TransportResult) (p : String)
    (r : RecoveryStartResponse)
    (h200 : send (startAutomatedRecoveryRequest p)
      = .response 200 (encodeRecoveryStartResponse r)) :
    StartAutomatedRecovery send p = .ok r
      ∧ (∀ (send2 : Request → TransportResult) (p2 : String) (r2 : RecoveryStartResponse),
          StartAutomatedRecovery send2 p2 = .ok r2 →
          ∃ body, send2 (startAutomatedRecoveryRequest p2) = .response 200 body
            ∧ decodeRecoveryStartResponse body = some r2)
      ∧ (∀ (send2 : Request → TransportResult) (p2 : String) (status : Int) (body : String),
          send2 (startAutomatedRecoveryRequest p2) = .response status body → status ≠ 200 →
          ∃ he, StartAutomatedRecovery send2 p2 = .error (.httpResponse he)
            ∧ he.StatusCode = status ∧ he.Body = body)
      ∧ (∀ (send2 : Request → TransportResult) (p2 : String) (text : String),
          send2 (startAutomatedRecoveryRequest p2) = .failure text →
          StartAutomatedRecovery send2 p2 = .error (.other text)) := by
  refine ⟨?_, ?_, ?_, ?_⟩
  · simp [StartAutomatedRecovery, interpretStartResult, h200,
      decode_encodeRecoveryStartResponse]
  · intro send2 p2 r2 h
    unfold StartAutomatedRecovery interpretStartResult at h
    cases hs : send2 (startAutomatedRecoveryRequest p2) with
    | failure text => simp [hs] at h
    | response status body =>
      rw [hs] at h
      by_cases h2 : status = 200
      · subst h2
        refine ⟨body, rfl, ?_⟩
        cases hd : decodeRecoveryStartResponse body with
        | none => simp [hd] at h
        | some r3 =>
          simp only [hd, if_true] at h
          injection h with h
          rw [h]
      · simp [h2] at h
  · intro send2 p2 status body hs h2
    exact ⟨⟨status, body, "request failed, body: " ++ body⟩,
      by simp [StartAutomatedRecovery, interpretStartResult, hs, h2], rfl, rfl⟩
  · intro send2 p2 text hs
    simp [StartAutomatedRecovery, interpretStartResult, hs]

/-- C9, at `{Code: 200, Message: "Automated recovery started"}`, whose encoding
is `{"code":200,"message":"Automated recovery started"}`. -/
theorem start_result_only_for_200_witness :
    encodeRecoveryStartResponse ⟨200, "Automated recovery started"⟩ = startedBody
      ∧ StartAutomatedRecovery (answer 200 startedBody) ".*"
        = .ok ⟨200, "Automated recovery started"⟩ :=
  ⟨by decide, (start_result_only_for_200 (answer 200 startedBody) ".*"
    ⟨200, "Automated recovery started"⟩ rfl).1⟩

/-- Every case of `TestStartAutomatedRecovery` passes on the modelled client. -/
theorem TestStartAutomatedRecovery_passes : tests.all runTest = true := by
  decide

end Autorestore
